import Mathlib

/-!
Verification of the pyrge 2D game library (Python source) against its
natural-language specification.

The Python code is shallowly embedded in Lean: machine floats are idealized
as exact rationals (ℚ), Python attribute state becomes explicit records,
fallible Python code (code that can raise) returns `Except String α` where
the string names the Python exception class, and Python truthiness is made
explicit (a number is truthy iff nonzero, `None` is falsy, a `Vector` is
truthy iff some component is nonzero).
-/

namespace Pyrge

/-- Embeds `util.sign`: returns the argument itself when it equals zero
(the Python code returns `x` in that branch), else plus or minus one. -/
def sign (x : ℚ) : ℚ :=
  if x = 0 then x
  else if x > 0 then 1
  else -1

/-- Embeds Python division, which raises `ZeroDivisionError` on a zero
divisor instead of producing an IEEE infinity or NaN. -/
def pydiv (a b : ℚ) : Except String ℚ :=
  if b = 0 then Except.error "ZeroDivisionError"
  else Except.ok (a / b)

/-! ### point.py -/

/-- Embeds `point.Vector` (and `point.Point`): a 2D vector of idealized
floats. -/
structure Vector where
  x : ℚ
  y : ℚ
deriving DecidableEq, Repr

/-- Embeds `Vector.length`, `math.hypot(x, y) = sqrt(x*x + y*y)`.  The
square root has no exact rational embedding, so it is passed in as a
parameter `sqrt`; any faithful model of `math.hypot` on finite floats
satisfies `sqrt q = 0 iff q = 0` for `q >= 0`, which is the only property
the theorems below consume. -/
def Vector.length (sqrt : ℚ → ℚ) (v : Vector) : ℚ :=
  sqrt (v.x * v.x + v.y * v.y)

/-- Embeds `Vector.normalized`: `l = self.length(); Vector(self.x/l, self.y/l)`.
Python float division by zero raises `ZeroDivisionError`. -/
def Vector.normalized (sqrt : ℚ → ℚ) (v : Vector) : Except String Vector := do
  let l := v.length sqrt
  let nx ← pydiv v.x l
  let ny ← pydiv v.y l
  return ⟨nx, ny⟩

/-! ### tween.py -/

/-- Embeds a `tween.Tween` object's state and parameters.  `startval`,
`endval`, `duration`, `fn` are the constructor parameters (`fn` is the
interpolation function, defaulting to a linear lerp); `value`, `percent`,
`running` are the mutable fields.  `completeCount` instruments the model:
it counts invocations of the `onComplete` hook. -/
structure Tween where
  startval : ℚ
  endval : ℚ
  duration : ℚ
  fn : ℚ → ℚ → ℚ → ℚ
  value : ℚ
  percent : ℚ
  running : Bool
  completeCount : Nat

/-- Embeds the default interpolation used when no `function` argument is
given: `lambda s,e,d: s + (e-s)*d`. -/
def lerp (s e d : ℚ) : ℚ := s + (e - s) * d

/-- Embeds `Tween.__init__` with `function=None` (so the default lerp). -/
def Tween.init (start stop duration : ℚ) : Tween :=
  { startval := start, endval := stop, duration := duration, fn := lerp,
    value := start, percent := 0, running := false, completeCount := 0 }

/-- Embeds `Tween.start`: start only when not running and `percent < 1.0`. -/
def Tween.start (t : Tween) : Tween :=
  if ¬t.running ∧ t.percent < 1 then { t with running := true } else t

/-- Embeds `Tween.stop`. -/
def Tween.stop (t : Tween) : Tween :=
  if t.running then { t with running := false } else t

/-- Embeds `Tween.reset`: clear `running`, zero `percent`, restore
`value` to the start value. -/
def Tween.reset (t : Tween) : Tween :=
  { t with running := false, percent := 0, value := t.startval }

/-- Embeds `Tween.update`.  `elapsed` is `world.Game.elapsed`, the frame
time in milliseconds.  While running, `percent` advances by
`elapsed / (duration * 1000)`, the value is recomputed through the
interpolation function, and on reaching `percent >= 1.0` the value is
pinned to `endval`, `running` is cleared and `onComplete` fires (counted
by `completeCount`). -/
def Tween.update (t : Tween) (elapsed : ℚ) : Tween :=
  if t.running then
    let p := t.percent + elapsed / (t.duration * 1000)
    let v := t.fn t.startval t.endval p
    if p ≥ 1 then
      { t with value := t.endval, percent := 1, running := false,
               completeCount := t.completeCount + 1 }
    else
      { t with value := v, percent := p }
  else t

/-! ### entity.py — Entity motion -/

/-- Embeds the motion-relevant state of an `entity.Entity`: position
`(x, y)` (the `_x`/`_y` attributes behind the `x`/`y`/`position`
properties), the private `_velocity`, `_accel`, `_drag` vectors, the
optional `maxVelocity` vector, the angular fields, and the `fixed` and
`alive` flags.  Render-only state (`rect`, `dirty`, the pixel surface) is
not modeled; `_recenter` touches only that state. -/
structure Entity where
  x : ℚ
  y : ℚ
  vel : Vector
  accel : Vector
  drag : Vector
  maxVelocity : Option Vector
  angle : ℚ
  angularVelocity : ℚ
  angularAcceleration : ℚ
  maxAngularVelocity : Option ℚ
  rotating : Bool
  fixed : Bool
  alive : Bool
deriving Repr

/-- Embeds `Entity._set_velocity`, the setter of the `velocity` property.
When `self.maxVelocity` is truthy (not `None` and not the zero vector) each
assigned component is clamped to `maxVelocity.c * sign(component)` whenever
its magnitude exceeds the magnitude of the corresponding `maxVelocity`
component. -/
def setVelocity (maxV : Option Vector) (val : Vector) : Vector :=
  match maxV with
  | some m =>
      if m ≠ ⟨0, 0⟩ then
        ⟨if |m.x| < |val.x| then m.x * sign val.x else val.x,
         if |m.y| < |val.y| then m.y * sign val.y else val.y⟩
      else val
  | none => val

/-- Embeds `Entity._set_angularvelocity`, the setter of the
`angularVelocity` property: when `maxAngularVelocity` is truthy
(not `None` and nonzero) and its magnitude is below the assigned
magnitude, the stored value is `maxAngularVelocity * sign(val)`. -/
def setAngularVelocity (mav : Option ℚ) (val : ℚ) : ℚ :=
  match mav with
  | some m => if m ≠ 0 ∧ |m| < |val| then m * sign val else val
  | none => val

/-- Embeds one axis of the drag branch of `Entity.update`: when the drag
component is truthy (nonzero) and the acceleration component is falsy
(zero), the velocity component loses `drag * sign(velocity)` if its
magnitude strictly exceeds the drag magnitude, else it is set to `0.0`.
Note the decrement is applied once per update call and is not scaled
by the frame time. -/
def dragAxis (d a v : ℚ) : ℚ :=
  if d ≠ 0 ∧ a = 0 then
    if |v| > |d| then v - d * sign v else 0
  else v

/-- Embeds `Entity.update` for one frame with `world.Game.elapsed = elapsed`
milliseconds.  When the entity is alive and not fixed and
`dt = elapsed/1000 > 0.001`: drag is applied per axis, then
`self.velocity += self.acceleration * dt` runs through the `velocity`
property setter (clamping against a truthy `maxVelocity`), then the
update method additionally clamps each component from above (only the
`>` direction) whenever `maxVelocity is not None`, then the position
moves by `velocity * dt`, and the rotation block integrates the angular
quantities.  The `onMove*` hooks are no-ops on a base `Entity`, and
`_recenter` plus the superclass `Image.update` touch only render state. -/
def Entity.update (elapsed : ℚ) (e : Entity) : Entity :=
  if e.alive ∧ ¬e.fixed then
    let dt := elapsed / 1000
    if dt > 1 / 1000 then
      let v1 : Vector := ⟨dragAxis e.drag.x e.accel.x e.vel.x,
                          dragAxis e.drag.y e.accel.y e.vel.y⟩
      let v2 := setVelocity e.maxVelocity ⟨v1.x + e.accel.x * dt, v1.y + e.accel.y * dt⟩
      let v3 : Vector :=
        match e.maxVelocity with
        | some m => ⟨if v2.x > m.x then m.x else v2.x,
                     if v2.y > m.y then m.y else v2.y⟩
        | none => v2
      let x2 := e.x + v3.x * dt
      let y2 := e.y + v3.y * dt
      if (e.angle ≠ 0 ∧ e.rotating) ∨ e.angularVelocity ≠ 0 ∨ e.angularAcceleration ≠ 0 then
        -- `self.angularVelocity += self.angularAcceleration * dt` runs
        -- through the `angularVelocity` property setter, as does the
        -- one-sided clamp assignment that follows it
        let av1 := setAngularVelocity e.maxAngularVelocity
          (e.angularVelocity + e.angularAcceleration * dt)
        let av2 :=
          match e.maxAngularVelocity with
          | some mav =>
              if mav ≠ 0 ∧ av1 > mav then setAngularVelocity e.maxAngularVelocity mav
              else av1
          | none => av1
        { e with vel := v3, x := x2, y := y2,
                 angularVelocity := av2, angle := e.angle + av2 * dt }
      else
        { e with vel := v3, x := x2, y := y2 }
    else e
  else e

/-! ### world.py — camera follow -/

/-- Embeds the camera-relevant state of a `world.World`: the scroll offset
`Game.scroll`, the focus object's position and velocity (or no focus),
the private lead, speed and bounds attributes set by `__init__`,
`follow` and `followBounds`, and the screen center from
`getScreenCenter()`.  The separate `focusLead` field mirrors the
attribute that `follow` assigns (note: distinct from the private
`_focusLead` that `_doCameraFollow` reads). -/
structure World where
  scroll : Vector
  focus : Option (Vector × Vector)
  focusLeadPriv : Option Vector
  focusLead : Option Vector
  followSpeed : ℚ
  followMin : Option Vector
  followMax : Option Vector
  screenCenter : Vector
deriving Repr

/-- Embeds the scroll increment and clamp of `World._doCameraFollow`:
`Game.scroll += (target - Game.scroll) * followSpeed * elapsed / 1000`,
then the result is clamped componentwise below by `_followMin` and above
by `_followMax` when those are set. -/
def scrollStep (w : World) (elapsed : ℚ) (target : Vector) : World :=
    let s : Vector :=
      ⟨w.scroll.x + (target.x - w.scroll.x) * w.followSpeed * elapsed / 1000,
       w.scroll.y + (target.y - w.scroll.y) * w.followSpeed * elapsed / 1000⟩
    let s2 : Vector :=
      match w.followMin with
      | some mn => ⟨if s.x < mn.x then mn.x else s.x, if s.y < mn.y then mn.y else s.y⟩
      | none => s
    let s3 : Vector :=
      match w.followMax with
      | some mx => ⟨if s2.x > mx.x then mx.x else s2.x, if s2.y > mx.y then mx.y else s2.y⟩
      | none => s2
    { w with scroll := s3 }

/-- Embeds `World._doCameraFollow` for one frame with
`Game.elapsed = elapsed` milliseconds.  With a focus set, the target is
`focus.position - screenCenter`; if the private `_focusLead` is truthy the
code reads `self.velocity * self._focusLead`, but a `World` (via
`GameLoop`) never has a `velocity` attribute, so that branch raises
`AttributeError`; otherwise the scroll offset moves by `scrollStep`. -/
def doCameraFollow (elapsed : ℚ) (w : World) : Except String World :=
  match w.focus with
  | none => Except.ok w
  | some (fpos, _fvel) =>
      let target : Vector := ⟨fpos.x - w.screenCenter.x, fpos.y - w.screenCenter.y⟩
      match w.focusLeadPriv with
      | some lead =>
          if lead ≠ ⟨0, 0⟩ then Except.error "AttributeError"
          else Except.ok (scrollStep w elapsed target)
      | none => Except.ok (scrollStep w elapsed target)

/-- Embeds `World.follow(o, lead)`: stores the focus object, and when
`lead` is truthy assigns `self.focusLead` — the public attribute, not the
private `_focusLead` that `_doCameraFollow` consults — then runs one
camera-follow step. -/
def World.follow (w : World) (opos ovel : Vector) (lead : Option Vector)
    (elapsed : ℚ) : Except String World :=
  let w1 := { w with focus := some (opos, ovel) }
  let w2 :=
    match lead with
    | some l => if l ≠ ⟨0, 0⟩ then { w1 with focusLead := some l } else w1
    | none => w1
  doCameraFollow elapsed w2

/-! ### pygame rectangles -/

/-- Embeds a pygame `Rect`: integer `x`, `y` (top-left corner), width and
height. -/
structure PRect where
  x : Int
  y : Int
  w : Int
  h : Int
deriving DecidableEq, Repr

/-- The `left` edge of a pygame rect. -/
def PRect.left (r : PRect) : Int := r.x

/-- The `top` edge of a pygame rect. -/
def PRect.top (r : PRect) : Int := r.y

/-- The `right` edge of a pygame rect, `x + w`. -/
def PRect.right (r : PRect) : Int := r.x + r.w

/-- The `bottom` edge of a pygame rect, `y + h`. -/
def PRect.bottom (r : PRect) : Int := r.y + r.h

/-- The `centerx` of a pygame rect, `x + w/2` in C integer arithmetic.
(The rounding mode is irrelevant to every theorem below.) -/
def PRect.centerx (r : PRect) : Int := r.x + r.w / 2

/-- The `centery` of a pygame rect, `y + h/2` in C integer arithmetic. -/
def PRect.centery (r : PRect) : Int := r.y + r.h / 2

/-- Embeds pygame `Rect.colliderect`: two rects collide iff they strictly
overlap on both axes (touching edges do not collide). -/
def colliderect (a b : PRect) : Bool :=
  a.left < b.right && a.top < b.bottom && a.right > b.left && a.bottom > b.top

/-- Embeds pygame `Rect.union` (used by `unionall`): the smallest rect
covering both arguments. -/
def unionRect (a b : PRect) : PRect :=
  let l := min a.left b.left
  let t := min a.top b.top
  ⟨l, t, max a.right b.right - l, max a.bottom b.bottom - t⟩

/-- Embeds `r.unionall(rs)`. -/
def unionall (r : PRect) (rs : List PRect) : PRect := rs.foldl unionRect r

/-! ### entity.py — collision detection -/

/-- Embeds the collision-relevant state of an `entity.Image`/`Entity`:
`oid` models Python object identity (the `is` operator and hash-by-identity
set membership; distinct live objects have distinct ids), `x`/`y` the
position, `rect` the integer screen rect, the optional `hitbox` and
`mask` attributes (a mask is its list of set pixel offsets), and the
`velocity` vector. -/
structure Sprite where
  oid : Nat
  alive : Bool
  collidable : Bool
  x : ℚ
  y : ℚ
  rect : PRect
  hitbox : Option PRect
  mask : Option (List (Int × Int))
  velocity : Vector
deriving DecidableEq, Repr

/-- The `other` argument of `Image.overlap`/`Image.collide`: `None`,
another sprite, or a bare pygame `Rect`. -/
inductive Other where
  | none
  | sprite (s : Sprite)
  | rect (r : PRect)
deriving DecidableEq, Repr

/-- Embeds `pygame.sprite.collide_mask`: the two masks overlap iff some
set pixel of one, offset by its rect's top-left corner, coincides with a
set pixel of the other offset likewise. -/
def collideMask (a b : Sprite) (ma mb : List (Int × Int)) : Bool :=
  ma.any fun p => mb.any fun q =>
    a.rect.x + p.1 == b.rect.x + q.1 && a.rect.y + p.2 == b.rect.y + q.2

/-- The part of `Image.overlap` after the liveness test: return `False`
for self-collision or a `None` collidee, `colliderect` against a bare
`Rect`, and otherwise a hitbox/rect bounding-box test refined by
pixel-mask collision when both objects carry masks. -/
def overlapMain (self : Sprite) (other : Other) : Bool :=
  match other with
  | .none => false
  | .rect r => colliderect self.rect r
  | .sprite o =>
      if self.oid = o.oid then false
      else
        let sbox := self.hitbox.getD self.rect
        let obox := o.hitbox.getD o.rect
        let boxcollision := colliderect sbox obox
        match self.mask, o.mask with
        | some ms, some mo => if boxcollision then collideMask self o ms mo else false
        | _, _ => boxcollision

/-- Embeds `Image.overlap(other, checkAlive)`.  The Python liveness guard
`if checkAlive and (not self.alive or not other.alive)` runs before the
`self is other or other is None` test, so with `checkAlive` set and a
live `self` it evaluates `other.alive`, which raises `AttributeError`
when `other` is `None` or a bare pygame `Rect`. -/
def overlap (self : Sprite) (other : Other) (checkAlive : Bool) :
    Except String Bool :=
  if checkAlive then
    if ¬self.alive then Except.ok false
    else
      match other with
      | .none => Except.error "AttributeError"
      | .rect _ => Except.error "AttributeError"
      | .sprite o =>
          if ¬o.alive then Except.ok false
          else Except.ok (overlapMain self (Other.sprite o))
  else Except.ok (overlapMain self other)

/-- Embeds `Image.collide(other, kill, checkAlive)` up to its return
value: on overlap it classifies the colliding sides (modeled separately
by `collideSidesVert`, since the sides only feed the no-op `hit*` hooks)
and returns the result of `onCollision`, which on a base `Image` is
`self.collidable and self.alive`; without overlap the method falls off
the end and returns Python `None` (modeled as `Option.none`). -/
def collide (self : Sprite) (other : Other) (checkAlive : Bool) :
    Except String (Option Bool) := do
  let ov ← overlap self other checkAlive
  if ov then
    return some (self.collidable && self.alive)
  else
    return Option.none

/-- Embeds the vertical half of the side-classification block of
`Image.collide`, returning the `(_b, _t)` pair.  The statement
`selfvx,selfvy = self.velocity if hasattr(self, 'velocity') else 0,0`
parses as `selfvx, selfvy = (self.velocity if ... else 0), 0`, so
`selfvy` and `othervy` are bound to the constant `0`, not to the `y`
velocity components.  (For the same reason `selfvx`/`othervx` are bound
to whole `Vector` objects, whose `<`/`>` falls back to Python 2
identity-based default ordering; the horizontal half is therefore not
deterministically statable and is not modeled.) -/
def collideSidesVert (self : Sprite) (other : Sprite) : Bool × Bool :=
  let selfvy : ℚ := 0
  let othervy : ℚ := 0
  (decide (selfvy > othervy) ||
     (decide (self.y < other.y) && decide (self.rect.bottom > other.rect.top)),
   decide (selfvy < othervy) ||
     (decide (self.y > other.y) && decide (self.rect.top < other.rect.bottom)))

/-- The vertical side classification as the specification describes it:
`bottom` iff `self`'s `velocity.y` exceeds `other`'s, or `self` is above
`other` with `self`'s bottom edge past `other`'s top edge; symmetric for
`top`. -/
def collideSidesVertClaimed (self : Sprite) (other : Sprite) : Bool × Bool :=
  (decide (self.velocity.y > other.velocity.y) ||
     (decide (self.y < other.y) && decide (self.rect.bottom > other.rect.top)),
   decide (self.velocity.y < other.velocity.y) ||
     (decide (self.y > other.y) && decide (self.rect.top < other.rect.bottom)))

/-- The per-axis drag rule as the specification words it ("decelerate
velocity toward 0 by `drag` magnitude **per second**, clamped so it
cannot overshoot past zero"), for comparison with the code's `dragAxis`:
over a frame of `dt` seconds the decrement would be `|d| * dt`. -/
def dragAxisClaimed (d a v dt : ℚ) : ℚ :=
  if d ≠ 0 ∧ a = 0 then
    if |v| > |d| * dt then v - |d| * dt * sign v else 0
  else v

/-- The camera-follow step as the specification words it, for comparison
with the code's `doCameraFollow`: the target is
`focus.position - screenCenter` plus `followLead * focusVelocity` when a
lead has been configured through `follow(o, lead)` (that call stores the
lead in the `focusLead` attribute), followed by the same smoothing and
clamping step. -/
def doCameraFollowClaimed (elapsed : ℚ) (w : World) : World :=
  match w.focus with
  | none => w
  | some (fpos, fvel) =>
      let base : Vector := ⟨fpos.x - w.screenCenter.x, fpos.y - w.screenCenter.y⟩
      let target : Vector :=
        match w.focusLead with
        | some l => ⟨base.x + fvel.x * l.x, base.y + fvel.y * l.y⟩
        | none => base
      scrollStep w elapsed target

/-! ### quadtree.py -/

/-- An item stored in the quadtree: Python object identity plus the
`rect` attribute, the only attribute `QuadTree` reads. -/
structure Item where
  oid : Nat
  rect : PRect
deriving DecidableEq, Repr

/-- The `in_nw` test of `QuadTree.__init__`:
`item.rect.left <= cx and item.rect.top <= cy`. -/
def inNW (cx cy : Int) (i : Item) : Bool :=
  i.rect.left ≤ cx && i.rect.top ≤ cy

/-- The `in_sw` test: `item.rect.left <= cx and item.rect.bottom >= cy`. -/
def inSW (cx cy : Int) (i : Item) : Bool :=
  i.rect.left ≤ cx && i.rect.bottom ≥ cy

/-- The `in_ne` test: `item.rect.right >= cx and item.rect.top <= cy`. -/
def inNE (cx cy : Int) (i : Item) : Bool :=
  i.rect.right ≥ cx && i.rect.top ≤ cy

/-- The `in_se` test: `item.rect.right >= cx and item.rect.bottom >= cy`. -/
def inSE (cx cy : Int) (i : Item) : Bool :=
  i.rect.right ≥ cx && i.rect.bottom ≥ cy

/-- An item overlapping all four sub-quadrants stays at the current node. -/
def inAll (cx cy : Int) (i : Item) : Bool :=
  inNW cx cy i && inNE cx cy i && inSE cx cy i && inSW cx cy i

/-- The shape of a built `QuadTree`: either a terminal node (maximum
depth reached or no items), or an inner node with its center, the items
kept at this level, and four optional children (`None` when the
corresponding item list was empty). -/
inductive QTree where
  | leaf (items : List Item)
  | node (cx cy : Int) (items : List Item) (nw ne se sw : Option QTree)
deriving Repr

/-- The bounds used by `QuadTree.__init__`: the given bounds when
supplied, else the union of all item rects
(`items[0].rect.unionall([i.rect for i in items[1:]])`); the `[]` case is
unreachable because the caller has `items` nonempty. -/
def calcBounds (items : List Item) (bounds : Option PRect) : PRect :=
  match bounds with
  | some b => b
  | none =>
      match items with
      | [] => ⟨0, 0, 0, 0⟩
      | i :: rest => unionall i.rect (rest.map Item.rect)

/-- The `self.items` kept at an inner node: the items overlapping all
four sub-quadrants. -/
def nodeItems (cx cy : Int) (items : List Item) : List Item :=
  items.filter fun i => inAll cx cy i

/-- The `nw_items` list of `QuadTree.__init__`. -/
def nwItems (cx cy : Int) (items : List Item) : List Item :=
  items.filter fun i => inNW cx cy i && !inAll cx cy i

/-- The `ne_items` list of `QuadTree.__init__`. -/
def neItems (cx cy : Int) (items : List Item) : List Item :=
  items.filter fun i => inNE cx cy i && !inAll cx cy i

/-- The `se_items` list of `QuadTree.__init__`. -/
def seItems (cx cy : Int) (items : List Item) : List Item :=
  items.filter fun i => inSE cx cy i && !inAll cx cy i

/-- The `sw_items` list of `QuadTree.__init__`. -/
def swItems (cx cy : Int) (items : List Item) : List Item :=
  items.filter fun i => inSW cx cy i && !inAll cx cy i

/-- Embeds `QuadTree.__init__`.  `depth` is decremented first; at
`depth == 0` or with no items the node keeps all items.  Otherwise the
items overlapping all four sub-quadrants of the bounds center stay here
and the rest are distributed to every sub-quadrant they overlap, each
nonempty quadrant list becoming a child built with the sub-bounds
4-tuples the code passes (which pygame reads as
`(left, top, width, height)`, not as two corners — the proofs below are
parametric in the resulting centers, so this affects layout only).
The Python `depth` is a plain `int` that skips the `== 0` test and
recurses unboundedly when called with `depth <= 0`, so the claims are
stated for `depth >= 1` where this `Nat` model agrees with the code. -/
def build (items : List Item) (depth : Nat) (bounds : Option PRect) : QTree :=
  if depth - 1 = 0 ∨ items = [] then .leaf items
  else
    let b := calcBounds items bounds
    let cx := b.centerx
    let cy := b.centery
    QTree.node cx cy (nodeItems cx cy items)
      (if nwItems cx cy items = [] then none else
        some (build (nwItems cx cy items) (depth - 1) (some ⟨b.left, b.top, cx, cy⟩)))
      (if neItems cx cy items = [] then none else
        some (build (neItems cx cy items) (depth - 1) (some ⟨cx, b.top, b.right, cy⟩)))
      (if seItems cx cy items = [] then none else
        some (build (seItems cx cy items) (depth - 1) (some ⟨cx, cy, b.right, b.bottom⟩)))
      (if swItems cx cy items = [] then none else
        some (build (swItems cx cy items) (depth - 1) (some ⟨b.left, cy, cx, b.bottom⟩)))
termination_by depth
decreasing_by all_goals (simp only [not_or] at *; omega)

mutual
/-- Embeds `QuadTree.hit(rect)`: the set (hash-by-identity `set()`) of
items at this node colliding with the query rect
(`rect.collidelistall(self.items)`), unioned with the hits of every
existing child whose quadrant test against the node center passes
(`if self.nw and rect.left <= self.cx and rect.top <= self.cy: ...`,
and so on for the other three quadrants). -/
def hit (t : QTree) (r : PRect) : Finset Item :=
  match t with
  | .leaf items => (items.filter fun i => colliderect r i.rect).toFinset
  | .node cx cy items nw ne se sw =>
      ((items.filter fun i => colliderect r i.rect).toFinset
        ∪ hitChild nw (decide (r.left ≤ cx ∧ r.top ≤ cy)) r
        ∪ hitChild sw (decide (r.left ≤ cx ∧ r.bottom ≥ cy)) r
        ∪ hitChild ne (decide (r.right ≥ cx ∧ r.top ≤ cy)) r
        ∪ hitChild se (decide (r.right ≥ cx ∧ r.bottom ≥ cy)) r)

/-- One child contribution to `QuadTree.hit`: nothing when the child is
`None` or its quadrant test failed, else the child's hits. -/
def hitChild (c : Option QTree) (cond : Bool) (r : PRect) : Finset Item :=
  match c, cond with
  | some t2, true => hit t2 r
  | _, _ => ∅
end

/-- The brute-force reference check the specification compares against:
the set of items whose bounding box intersects the query rect. -/
def bruteHit (items : List Item) (r : PRect) : Finset Item :=
  (items.filter fun i => colliderect i.rect r).toFinset

/-! ## Theorems -/

/-- Claim C8: `normalized()` on a vector whose length is 0 fails with the
`ZeroDivisionError` Python raises for float division by zero — a specific,
assertable error, not silent NaN propagation — and on every vector of
nonzero length it returns a vector without error (namely the componentwise
quotient by the length). -/
theorem normalized_zero_length_error (sqrt : ℚ → ℚ) (v : Vector) :
    (v.length sqrt = 0 → v.normalized sqrt = Except.error "ZeroDivisionError") ∧
    (v.length sqrt ≠ 0 →
      v.normalized sqrt = Except.ok ⟨v.x / v.length sqrt, v.y / v.length sqrt⟩) := by
  constructor <;> intro h <;>
    simp [Vector.normalized, pydiv, h, bind, Except.bind, pure, Except.pure]

/-- Witness for C8: with the identity as the square-root model, the zero
vector errors out and a nonzero vector normalizes without error. -/
theorem normalized_zero_length_error_witness :
    Vector.normalized (fun q => q) ⟨0, 0⟩ = Except.error "ZeroDivisionError" ∧
    Vector.normalized (fun q => q) ⟨3, 4⟩ = Except.ok ⟨3 / 25, 4 / 25⟩ := by
  refine ⟨(normalized_zero_length_error (fun q => q) ⟨0, 0⟩).1 (by norm_num [Vector.length]), ?_⟩
  have h := (normalized_zero_length_error (fun q => q) ⟨3, 4⟩).2 (by norm_num [Vector.length])
  norm_num [Vector.length] at h
  exact h

/-- Claim C10: `start()` on a Tween whose `percent` has reached 1.0 is a
no-op, and `reset()` clears `running`, zeroes `percent` and restores the
start value, after which the tween can run again. -/
theorem tween_start_noop_after_complete (t : Tween) (h : 1 ≤ t.percent) :
    t.start = t ∧
    t.reset = { t with running := false, percent := 0, value := t.startval } := by
  refine ⟨?_, rfl⟩
  have hc : ¬(¬t.running = true ∧ t.percent < 1) := fun hand => absurd h (not_le.mpr hand.2)
  unfold Tween.start
  rw [if_neg hc]

/-- Witness for C10 at a concrete completed tween. -/
theorem tween_start_noop_after_complete_witness :
    Tween.start ⟨0, 10, 1, lerp, 10, 1, false, 1⟩ = ⟨0, 10, 1, lerp, 10, 1, false, 1⟩ ∧
    Tween.reset ⟨0, 10, 1, lerp, 10, 1, false, 1⟩ = ⟨0, 10, 1, lerp, 0, 0, false, 1⟩ := by
  exact tween_start_noop_after_complete ⟨0, 10, 1, lerp, 10, 1, false, 1⟩ (by norm_num)

/-- Helper: a running, never-completed tween of duration 1 driven by a
nonempty list of positive frame times whose total, added to the current
progress, reaches exactly 100 percent, ends pinned at `endval`, stopped,
with `onComplete` having fired exactly once. -/
theorem tween_foldl_completes (ds : List ℚ) :
    ∀ t : Tween, t.duration = 1 → t.running = true → t.completeCount = 0 →
      0 ≤ t.percent → t.percent + ds.sum / 1000 = 1 → (∀ d ∈ ds, 0 < d) → ds ≠ [] →
      ds.foldl Tween.update t =
        { t with value := t.endval, percent := 1, running := false, completeCount := 1 } := by
  induction ds with
  | nil => intro t _ _ _ _ _ _ hne; exact absurd rfl hne
  | cons d rest ih =>
    intro t hdur hrun hcc hp0 hsum hpos _
    have hd : 0 < d := hpos d (List.mem_cons_self d rest)
    rw [List.foldl_cons]
    rcases eq_or_ne rest [] with hrest | hrest
    · subst hrest
      have hp1 : t.percent + d / (t.duration * 1000) = 1 := by
        rw [hdur]; simpa using hsum
      have : Tween.update t d =
          { t with value := t.endval, percent := 1, running := false,
                   completeCount := t.completeCount + 1 } := by
        unfold Tween.update
        rw [hrun]
        simp only [if_true, hp1, ge_iff_le, le_refl, if_pos]
      rw [List.foldl_nil, this, hcc]
    · have hrsum : 0 < rest.sum := by
        rcases rest with _ | ⟨r, rs⟩
        · exact absurd rfl hrest
        · have hr : 0 < r := hpos r (by simp)
          have hrs : 0 ≤ rs.sum := by
            apply List.sum_nonneg
            intro a ha
            exact le_of_lt (hpos a (by simp [ha]))
          simpa using add_pos_of_pos_of_nonneg hr hrs
      have hplt : t.percent + d / (t.duration * 1000) < 1 := by
        rw [hdur]
        have : t.percent + (d + rest.sum) / 1000 = 1 := by simpa using hsum
        nlinarith
      have hstep : Tween.update t d =
          { t with value := t.fn t.startval t.endval (t.percent + d / (t.duration * 1000)),
                   percent := t.percent + d / (t.duration * 1000) } := by
        unfold Tween.update
        rw [hrun]
        simp only [if_true, if_neg (not_le.mpr hplt)]
      rw [hstep]
      have := ih { t with
          value := t.fn t.startval t.endval (t.percent + d / (t.duration * 1000)),
          percent := t.percent + d / (t.duration * 1000) }
        hdur hrun hcc
        (by positivity)
        (by
          show t.percent + d / (t.duration * 1000) + rest.sum / 1000 = 1
          rw [hdur]
          field_simp at hsum ⊢
          linarith)
        (fun a ha => hpos a (List.mem_cons_of_mem d ha)) hrest
      rw [this]

/-- Claim C7: a `Tween(start=0, end=10, duration=1)` that is started and
then updated over frames whose times are positive and total exactly
1000 ms ends with value 10 and `running == False`, with `onComplete`
fired exactly once; any further update without a reset leaves the state
(value included) unchanged and does not fire `onComplete` again. -/
theorem tween_completes_once (ds : List ℚ) (e : ℚ)
    (hpos : ∀ d ∈ ds, 0 < d) (hsum : ds.sum = 1000) :
    (ds.foldl Tween.update ((Tween.init 0 10 1).start)).value = 10 ∧
    (ds.foldl Tween.update ((Tween.init 0 10 1).start)).running = false ∧
    (ds.foldl Tween.update ((Tween.init 0 10 1).start)).completeCount = 1 ∧
    Tween.update (ds.foldl Tween.update ((Tween.init 0 10 1).start)) e
      = ds.foldl Tween.update ((Tween.init 0 10 1).start) := by
  have hne : ds ≠ [] := by
    intro hnil
    rw [hnil] at hsum
    norm_num at hsum
  have hstart : (Tween.init 0 10 1).start =
      { Tween.init 0 10 1 with running := true } := by
    unfold Tween.start Tween.init
    norm_num
  have hrun := tween_foldl_completes ds ({ Tween.init 0 10 1 with running := true })
    rfl rfl rfl le_rfl (by simp [Tween.init, hsum]) hpos hne
  rw [hstart, hrun]
  refine ⟨rfl, rfl, rfl, ?_⟩
  unfold Tween.update
  simp [Tween.init]

/-- Witness for C7: two frames of 500 ms each complete the tween, and a
further 250 ms frame changes nothing. -/
theorem tween_completes_once_witness :
    ([500, 250 + 250].foldl Tween.update ((Tween.init 0 10 1).start)).value = 10 ∧
    ([500, 250 + 250].foldl Tween.update ((Tween.init 0 10 1).start)).running = false ∧
    ([500, 250 + 250].foldl Tween.update ((Tween.init 0 10 1).start)).completeCount = 1 ∧
    Tween.update ([500, 250 + 250].foldl Tween.update ((Tween.init 0 10 1).start)) 250
      = [500, 250 + 250].foldl Tween.update ((Tween.init 0 10 1).start) := by
  exact tween_completes_once [500, 250 + 250] 250 (by norm_num) (by norm_num)

/-- Claim C4: an alive, non-fixed entity with velocity `(100, 0)`, zero
acceleration and zero drag, updated for one frame of 500 ms
(`dt = 0.5 s`), gains exactly 50 units in `x` and keeps its `y`; and a
fixed entity never changes position in `update`, whatever its velocity,
acceleration and frame time. -/
theorem entity_update_motion (x y angle av aa : ℚ) (mav : Option ℚ)
    (rotating : Bool) (e : Entity) (elapsed : ℚ) (hfix : e.fixed = true) :
    ((Entity.update 500
        { x := x, y := y, vel := ⟨100, 0⟩, accel := ⟨0, 0⟩, drag := ⟨0, 0⟩,
          maxVelocity := none, angle := angle, angularVelocity := av,
          angularAcceleration := aa, maxAngularVelocity := mav,
          rotating := rotating, fixed := false, alive := true }).x = x + 50 ∧
     (Entity.update 500
        { x := x, y := y, vel := ⟨100, 0⟩, accel := ⟨0, 0⟩, drag := ⟨0, 0⟩,
          maxVelocity := none, angle := angle, angularVelocity := av,
          angularAcceleration := aa, maxAngularVelocity := mav,
          rotating := rotating, fixed := false, alive := true }).y = y) ∧
    ((Entity.update elapsed e).x = e.x ∧ (Entity.update elapsed e).y = e.y) := by
  constructor
  · unfold Entity.update
    norm_num [dragAxis, setVelocity]
    split <;> norm_num
  · unfold Entity.update
    rw [hfix]
    norm_num

/-- Witness for C4 at concrete inputs (a fixed entity keeps its position
even with large velocity and acceleration). -/
theorem entity_update_motion_witness :
    ((Entity.update 500
        { x := 3, y := 7, vel := ⟨100, 0⟩, accel := ⟨0, 0⟩, drag := ⟨0, 0⟩,
          maxVelocity := none, angle := 0, angularVelocity := 0,
          angularAcceleration := 0, maxAngularVelocity := none,
          rotating := false, fixed := false, alive := true }).x = 3 + 50 ∧
     (Entity.update 500
        { x := 3, y := 7, vel := ⟨100, 0⟩, accel := ⟨0, 0⟩, drag := ⟨0, 0⟩,
          maxVelocity := none, angle := 0, angularVelocity := 0,
          angularAcceleration := 0, maxAngularVelocity := none,
          rotating := false, fixed := false, alive := true }).y = 7) ∧
    ((Entity.update 123
        { x := 1, y := 2, vel := ⟨-55, 44⟩, accel := ⟨9, 9⟩, drag := ⟨0, 0⟩,
          maxVelocity := none, angle := 0, angularVelocity := 0,
          angularAcceleration := 0, maxAngularVelocity := none,
          rotating := false, fixed := true, alive := true }).x = 1 ∧
     (Entity.update 123
        { x := 1, y := 2, vel := ⟨-55, 44⟩, accel := ⟨9, 9⟩, drag := ⟨0, 0⟩,
          maxVelocity := none, angle := 0, angularVelocity := 0,
          angularAcceleration := 0, maxAngularVelocity := none,
          rotating := false, fixed := true, alive := true }).y = 2) := by
  exact entity_update_motion 3 7 0 0 0 none false
    { x := 1, y := 2, vel := ⟨-55, 44⟩, accel := ⟨9, 9⟩, drag := ⟨0, 0⟩,
      maxVelocity := none, angle := 0, angularVelocity := 0,
      angularAcceleration := 0, maxAngularVelocity := none,
      rotating := false, fixed := true, alive := true } 123 rfl

/-- Helper: under the hypotheses of the drag claims, one entity update
changes the `x` velocity exactly by the drag rule. -/
theorem entity_update_velx (e : Entity) (elapsed : ℚ)
    (halive : e.alive = true) (hfix : e.fixed = false)
    (hdt : elapsed / 1000 > 1 / 1000) (hax : e.accel.x = 0)
    (hmv : e.maxVelocity = none) :
    (Entity.update elapsed e).vel.x = dragAxis e.drag.x e.accel.x e.vel.x := by
  unfold Entity.update
  rw [halive, hfix, hmv]
  simp only [not_false_eq_true, and_self, if_true, if_pos hdt, hax, zero_mul, add_zero,
    setVelocity]
  split
  · split <;> rfl
  · rename_i hcontra
    simp at hcontra

/-- Counterexample to C6 as stated: with velocity `(10, 0)`,
drag `(2, 0)`, zero acceleration and a 500 ms frame (`dt = 0.5 s`), the
code subtracts the full drag component (yielding 8), not the
per-second-scaled `drag * dt` the claim describes (which would yield 9). -/
theorem drag_per_second_counterexample :
    (Entity.update 500
      { x := 0, y := 0, vel := ⟨10, 0⟩, accel := ⟨0, 0⟩, drag := ⟨2, 0⟩,
        maxVelocity := none, angle := 0, angularVelocity := 0,
        angularAcceleration := 0, maxAngularVelocity := none,
        rotating := false, fixed := false, alive := true }).vel.x ≠
      dragAxisClaimed 2 0 10 (500 / 1000) := by
  have h := entity_update_velx
    { x := 0, y := 0, vel := ⟨10, 0⟩, accel := ⟨0, 0⟩, drag := ⟨2, 0⟩,
      maxVelocity := none, angle := 0, angularVelocity := 0,
      angularAcceleration := 0, maxAngularVelocity := none,
      rotating := false, fixed := false, alive := true } 500
    rfl rfl (by norm_num) rfl rfl
  rw [h]
  norm_num [dragAxis, dragAxisClaimed, sign]

/-- Helper: under the hypotheses of the drag claims, one entity update
changes the `y` velocity exactly by the drag rule. -/
theorem entity_update_vely (e : Entity) (elapsed : ℚ)
    (halive : e.alive = true) (hfix : e.fixed = false)
    (hdt : elapsed / 1000 > 1 / 1000) (hay : e.accel.y = 0)
    (hmv : e.maxVelocity = none) :
    (Entity.update elapsed e).vel.y = dragAxis e.drag.y e.accel.y e.vel.y := by
  unfold Entity.update
  rw [halive, hfix, hmv]
  simp only [not_false_eq_true, and_self, if_true, if_pos hdt, hay, zero_mul, add_zero,
    setVelocity]
  split
  · split <;> rfl
  · rename_i hcontra
    simp at hcontra

/-- Helper: full behavior of one axis of the per-update drag step, for
any nonzero drag component: the exact branch formula; exact zero when
the speed is within one drag step; the sign of the velocity never flips;
a positive drag component never grows the speed; a negative drag
component grows the speed by its magnitude. -/
theorem dragAxis_spec (d v : ℚ) (hd : d ≠ 0) :
    dragAxis d 0 v = (if |v| > |d| then v - d * sign v else 0) ∧
    (|v| ≤ |d| → dragAxis d 0 v = 0) ∧
    0 ≤ dragAxis d 0 v * v ∧
    (0 < d → |dragAxis d 0 v| ≤ |v|) ∧
    (d < 0 → |v| > |d| → |dragAxis d 0 v| = |v| + |d|) := by
  unfold dragAxis
  rw [if_pos ⟨hd, rfl⟩]
  by_cases hgt : |v| > |d|
  · rw [if_pos hgt]
    have hv0 : v ≠ 0 := by
      intro h0
      rw [h0, abs_zero] at hgt
      exact absurd hgt (not_lt.mpr (abs_nonneg d))
    have hdle : d ≤ |d| := le_abs_self d
    have hdge : -|d| ≤ d := neg_abs_le d
    refine ⟨rfl, fun hle => absurd hgt (not_lt.mpr hle), ?_, ?_, ?_⟩
    · rcases lt_trichotomy v 0 with hv | hv | hv
      · have hs : sign v = -1 := by simp [sign, hv.ne, not_lt.mpr hv.le]
        rw [hs]
        rw [abs_of_neg hv] at hgt
        nlinarith
      · exact absurd hv hv0
      · have hs : sign v = 1 := by simp [sign, hv.ne.symm, hv]
        rw [hs]
        rw [abs_of_pos hv] at hgt
        nlinarith
    · intro hdpos
      rcases lt_trichotomy v 0 with hv | hv | hv
      · have hs : sign v = -1 := by simp [sign, hv.ne, not_lt.mpr hv.le]
        rw [hs, abs_of_neg hv]
        rw [abs_of_neg hv, abs_of_pos hdpos] at hgt
        rw [abs_of_neg (show v - d * -1 < 0 by linarith)]
        linarith
      · exact absurd hv hv0
      · have hs : sign v = 1 := by simp [sign, hv.ne.symm, hv]
        rw [hs, abs_of_pos hv]
        rw [abs_of_pos hv, abs_of_pos hdpos] at hgt
        rw [abs_of_pos (show 0 < v - d * 1 by linarith)]
        linarith
    · intro hdneg _
      rcases lt_trichotomy v 0 with hv | hv | hv
      · have hs : sign v = -1 := by simp [sign, hv.ne, not_lt.mpr hv.le]
        rw [hs, abs_of_neg hv, abs_of_neg hdneg]
        rw [abs_of_neg (show v - d * -1 < 0 by nlinarith)]
        ring
      · exact absurd hv hv0
      · have hs : sign v = 1 := by simp [sign, hv.ne.symm, hv]
        rw [hs, abs_of_pos hv, abs_of_neg hdneg]
        rw [abs_of_pos (show 0 < v - d * 1 by nlinarith)]
        ring
  · rw [if_neg hgt]
    refine ⟨rfl, fun _ => rfl, by simp, fun _ => ?_, fun _ hgt2 => absurd hgt2 hgt⟩
    rw [abs_zero]
    exact abs_nonneg _

/-- Claim C6 (amended): the drag decrement is applied once per update
call, not scaled by the frame time.  For an alive, non-fixed entity with
no `maxVelocity`, on each axis with zero acceleration and nonzero drag,
one update sets that axis's velocity to `v - drag*sign(v)` when `|v|`
exceeds the drag component's magnitude, and to exactly 0 otherwise (the
clamp cannot overshoot past zero).  The velocity's sign never flips; a
positive drag component decelerates (never grows the speed); a negative
drag component instead grows the speed by its magnitude. -/
theorem entity_drag_per_frame (e : Entity) (elapsed : ℚ)
    (halive : e.alive = true) (hfix : e.fixed = false)
    (hdt : elapsed / 1000 > 1 / 1000) (hmv : e.maxVelocity = none) :
    (e.accel.x = 0 → e.drag.x ≠ 0 →
      ((Entity.update elapsed e).vel.x =
          if |e.vel.x| > |e.drag.x| then e.vel.x - e.drag.x * sign e.vel.x else 0) ∧
      (|e.vel.x| ≤ |e.drag.x| → (Entity.update elapsed e).vel.x = 0) ∧
      0 ≤ (Entity.update elapsed e).vel.x * e.vel.x ∧
      (0 < e.drag.x → |(Entity.update elapsed e).vel.x| ≤ |e.vel.x|) ∧
      (e.drag.x < 0 → |e.vel.x| > |e.drag.x| →
        |(Entity.update elapsed e).vel.x| = |e.vel.x| + |e.drag.x|)) ∧
    (e.accel.y = 0 → e.drag.y ≠ 0 →
      ((Entity.update elapsed e).vel.y =
          if |e.vel.y| > |e.drag.y| then e.vel.y - e.drag.y * sign e.vel.y else 0) ∧
      (|e.vel.y| ≤ |e.drag.y| → (Entity.update elapsed e).vel.y = 0) ∧
      0 ≤ (Entity.update elapsed e).vel.y * e.vel.y ∧
      (0 < e.drag.y → |(Entity.update elapsed e).vel.y| ≤ |e.vel.y|) ∧
      (e.drag.y < 0 → |e.vel.y| > |e.drag.y| →
        |(Entity.update elapsed e).vel.y| = |e.vel.y| + |e.drag.y|)) := by
  constructor
  · intro hax hdx
    rw [entity_update_velx e elapsed halive hfix hdt hax hmv, hax]
    exact dragAxis_spec e.drag.x e.vel.x hdx
  · intro hay hdy
    rw [entity_update_vely e elapsed halive hfix hdt hay hmv, hay]
    exact dragAxis_spec e.drag.y e.vel.y hdy

/-- Witness for the amended C6: velocity (10, 10), drag (2, -2), a
500 ms frame: the `x` velocity loses one full drag step (8, sign kept),
while the negative `y` drag component grows the velocity to 12. -/
theorem entity_drag_per_frame_witness :
    (Entity.update 500
      { x := 0, y := 0, vel := ⟨10, 10⟩, accel := ⟨0, 0⟩, drag := ⟨2, -2⟩,
        maxVelocity := none, angle := 0, angularVelocity := 0,
        angularAcceleration := 0, maxAngularVelocity := none,
        rotating := false, fixed := false, alive := true }).vel.x = 8 ∧
    (Entity.update 500
      { x := 0, y := 0, vel := ⟨10, 10⟩, accel := ⟨0, 0⟩, drag := ⟨2, -2⟩,
        maxVelocity := none, angle := 0, angularVelocity := 0,
        angularAcceleration := 0, maxAngularVelocity := none,
        rotating := false, fixed := false, alive := true }).vel.y = 12 := by
  have hx := ((entity_drag_per_frame
    { x := 0, y := 0, vel := ⟨10, 10⟩, accel := ⟨0, 0⟩, drag := ⟨2, -2⟩,
      maxVelocity := none, angle := 0, angularVelocity := 0,
      angularAcceleration := 0, maxAngularVelocity := none,
      rotating := false, fixed := false, alive := true } 500
    rfl rfl (by norm_num) rfl).1 rfl (by norm_num)).1
  have hy := ((entity_drag_per_frame
    { x := 0, y := 0, vel := ⟨10, 10⟩, accel := ⟨0, 0⟩, drag := ⟨2, -2⟩,
      maxVelocity := none, angle := 0, angularVelocity := 0,
      angularAcceleration := 0, maxAngularVelocity := none,
      rotating := false, fixed := false, alive := true } 500
    rfl rfl (by norm_num) rfl).2 rfl (by norm_num)).1
  norm_num [sign] at hx hy
  exact ⟨hx, hy⟩

/-- Helper: the Python sign function has magnitude at most one. -/
theorem sign_abs_le_one (v : ℚ) : |sign v| ≤ 1 := by
  unfold sign
  split
  · simp_all
  · split <;> norm_num

/-- Helper: scaling the Python sign of `v` by a positive constant keeps
the Python sign of `v`. -/
theorem sign_pos_mul_sign (c v : ℚ) (hc : 0 < c) (hv : v ≠ 0) :
    sign (c * sign v) = sign v := by
  unfold sign
  rcases lt_trichotomy v 0 with h | h | h
  · rw [if_neg hv, if_neg (not_lt.mpr h.le)]
    have h1 : c * (-1 : ℚ) ≠ 0 := by intro h0; nlinarith
    have h2 : ¬(c * (-1 : ℚ) > 0) := by rw [gt_iff_lt, not_lt]; nlinarith
    rw [if_neg h1, if_neg h2]
  · exact absurd h hv
  · rw [if_neg hv, if_pos h]
    have h1 : c * (1 : ℚ) ≠ 0 := by intro h0; nlinarith
    have h2 : c * (1 : ℚ) > 0 := by nlinarith
    rw [if_neg h1, if_pos h2]

/-- Counterexample to C9 as stated: with `maxVelocity = (-5, 3)` (set,
nonzero), assigning velocity `(10, 4)` stores `x`-component `-5`; the
sign of the assigned `x` component (positive) is not preserved. -/
theorem velocity_clamp_sign_counterexample :
    sign (setVelocity (some ⟨-5, 3⟩) ⟨10, 4⟩).x ≠ sign ((⟨10, 4⟩ : Vector).x) := by
  norm_num [setVelocity, sign, Vector.mk.injEq]

/-- Claim C9 (amended): whenever `maxVelocity` is set (non-`None` and
nonzero), every assignment through the `velocity` property clamps each
component by magnitude, `|velocity.c| <= |maxVelocity.c|`; the sign of
each assigned component is preserved provided the corresponding
`maxVelocity` component is positive (a non-positive component instead
imposes its own sign, as the clamped value is
`maxVelocity.c * sign(assigned)`). -/
theorem velocity_clamp_magnitude (m val : Vector) (hm : m ≠ (⟨0, 0⟩ : Vector)) :
    (|(setVelocity (some m) val).x| ≤ |m.x| ∧ |(setVelocity (some m) val).y| ≤ |m.y|) ∧
    (0 < m.x → sign (setVelocity (some m) val).x = sign val.x) ∧
    (0 < m.y → sign (setVelocity (some m) val).y = sign val.y) := by
  unfold setVelocity
  dsimp only
  rw [if_pos hm]
  refine ⟨⟨?_, ?_⟩, ?_, ?_⟩
  · dsimp only
    split
    · rw [abs_mul]
      calc |m.x| * |sign val.x| ≤ |m.x| * 1 :=
            mul_le_mul_of_nonneg_left (sign_abs_le_one val.x) (abs_nonneg m.x)
        _ = |m.x| := mul_one _
    · rename_i h
      exact not_lt.mp h
  · dsimp only
    split
    · rw [abs_mul]
      calc |m.y| * |sign val.y| ≤ |m.y| * 1 :=
            mul_le_mul_of_nonneg_left (sign_abs_le_one val.y) (abs_nonneg m.y)
        _ = |m.y| := mul_one _
    · rename_i h
      exact not_lt.mp h
  · intro hmx
    dsimp only
    split
    · rename_i h
      have hvx : val.x ≠ 0 := by
        intro h0
        rw [h0, abs_zero] at h
        exact absurd h (not_lt.mpr (abs_nonneg m.x))
      exact sign_pos_mul_sign m.x val.x hmx hvx
    · rfl
  · intro hmy
    dsimp only
    split
    · rename_i h
      have hvy : val.y ≠ 0 := by
        intro h0
        rw [h0, abs_zero] at h
        exact absurd h (not_lt.mpr (abs_nonneg m.y))
      exact sign_pos_mul_sign m.y val.y hmy hvy
    · rfl

/-- Witness for the amended C9: `maxVelocity = (5, 5)`, assigned velocity
`(10, -3)`: the stored components stay within magnitude 5 and keep the
assigned signs. -/
theorem velocity_clamp_magnitude_witness :
    (|(setVelocity (some ⟨5, 5⟩) ⟨10, -3⟩).x| ≤ |(5 : ℚ)| ∧
     |(setVelocity (some ⟨5, 5⟩) ⟨10, -3⟩).y| ≤ |(5 : ℚ)|) ∧
    (0 < (5 : ℚ) → sign (setVelocity (some ⟨5, 5⟩) ⟨10, -3⟩).x = sign (10 : ℚ)) ∧
    (0 < (5 : ℚ) → sign (setVelocity (some ⟨5, 5⟩) ⟨10, -3⟩).y = sign (-3 : ℚ)) := by
  exact velocity_clamp_magnitude ⟨5, 5⟩ ⟨10, -3⟩ (by simp [Vector.mk.injEq])

/-- Claim C1 (code bug exhibited): `overlap(a, a)` is `False` for every
sprite, but `collide(a, None)` with the default `checkAlive=True` is not
the specified no-op returning `False`: for a live `a` the liveness guard
dereferences `other.alive` before the `other is None` test and raises
`AttributeError`, and for a dead `a` the method returns Python `None`
(falling off the end), not `False`. -/
theorem overlap_self_collide_none (a : Sprite) :
    overlap a (Other.sprite a) false = Except.ok false ∧
    (a.alive = true → collide a Other.none true = Except.error "AttributeError") ∧
    (a.alive = false → collide a Other.none true = Except.ok Option.none) := by
  refine ⟨?_, ?_, ?_⟩
  · simp [overlap, overlapMain]
  · intro h
    simp [collide, overlap, h, bind, Except.bind]
  · intro h
    simp [collide, overlap, h, bind, Except.bind, pure, Except.pure]

/-- Witness for C1 at concrete sprites: a live one raises, a dead one
returns `None`. -/
theorem overlap_self_collide_none_witness :
    collide ⟨1, true, true, 0, 0, ⟨0, 0, 4, 4⟩, none, none, ⟨0, 0⟩⟩ Other.none true
        = Except.error "AttributeError" ∧
    collide ⟨2, false, true, 0, 0, ⟨0, 0, 4, 4⟩, none, none, ⟨0, 0⟩⟩ Other.none true
        = Except.ok Option.none := by
  exact ⟨(overlap_self_collide_none _).2.1 rfl, (overlap_self_collide_none _).2.2 rfl⟩

/-- Claim C2 (code bug exhibited): two overlapping sprites at the same
height, the first moving down at `velocity.y = 5` against a stationary
second: the claimed velocity-aware rule marks the first sprite's bottom
side as colliding, but the code's side classification — whose tuple
unpacking binds `selfvy`/`othervy` to the constant 0 — marks neither
vertical side. -/
theorem collide_sides_vert_bug :
    overlap ⟨1, true, true, 0, 0, ⟨-5, -5, 10, 10⟩, none, none, ⟨0, 5⟩⟩
        (Other.sprite ⟨2, true, true, 0, 0, ⟨-5, -5, 10, 10⟩, none, none, ⟨0, 0⟩⟩) true
        = Except.ok true ∧
    collideSidesVert ⟨1, true, true, 0, 0, ⟨-5, -5, 10, 10⟩, none, none, ⟨0, 5⟩⟩
        ⟨2, true, true, 0, 0, ⟨-5, -5, 10, 10⟩, none, none, ⟨0, 0⟩⟩ = (false, false) ∧
    collideSidesVertClaimed ⟨1, true, true, 0, 0, ⟨-5, -5, 10, 10⟩, none, none, ⟨0, 5⟩⟩
        ⟨2, true, true, 0, 0, ⟨-5, -5, 10, 10⟩, none, none, ⟨0, 0⟩⟩ = (true, false) := by
  refine ⟨?_, ?_, ?_⟩ <;>
    norm_num [overlap, overlapMain, colliderect, collideSidesVert, collideSidesVertClaimed,
      PRect.left, PRect.top, PRect.right, PRect.bottom, Option.getD]

/-- Claim C5 (code bug exhibited): configuring a camera lead through
`follow(o, lead)` has no effect on scrolling.  `follow` stores the lead
in the unused `focusLead` attribute while `_doCameraFollow` reads the
private `_focusLead` (always `None` through the public API), so with a
focus at the screen center moving at 100 px/s and `lead = (10, 0)` the
scroll offset stays `(0, 0)`, while the claimed formula (with the lead
term `followLead * focusVelocity`) moves it to `(1000, 0)` after one
1000 ms frame at `followSpeed = 1`. -/
theorem camera_follow_lead_bug :
    (World.follow
        { scroll := ⟨0, 0⟩, focus := none, focusLeadPriv := none, focusLead := none,
          followSpeed := 1, followMin := none, followMax := none,
          screenCenter := ⟨320, 240⟩ }
        ⟨320, 240⟩ ⟨100, 0⟩ (some ⟨10, 0⟩) 1000).map World.scroll
      = Except.ok (⟨0, 0⟩ : Vector) ∧
    (doCameraFollowClaimed 1000
        { scroll := ⟨0, 0⟩, focus := some (⟨320, 240⟩, ⟨100, 0⟩), focusLeadPriv := none,
          focusLead := some ⟨10, 0⟩, followSpeed := 1, followMin := none,
          followMax := none, screenCenter := ⟨320, 240⟩ }).scroll
      = (⟨1000, 0⟩ : Vector) := by
  constructor
  · norm_num [World.follow, doCameraFollow, scrollStep, Except.map, Vector.mk.injEq]
  · norm_num [doCameraFollowClaimed, scrollStep, Vector.mk.injEq]

/-- Helper: the pygame strict-overlap test is symmetric. -/
theorem colliderect_comm (a b : PRect) : colliderect a b = colliderect b a := by
  unfold colliderect
  rw [Bool.eq_iff_iff]
  simp only [Bool.and_eq_true, decide_eq_true_eq]
  unfold PRect.left PRect.right PRect.top PRect.bottom
  omega

/-- Helper: `hit` on a terminal node filters its items. -/
theorem hit_leaf (items : List Item) (r : PRect) :
    hit (QTree.leaf items) r = (items.filter fun i => colliderect r i.rect).toFinset := by
  rw [hit]

/-- Helper: `hit` on an inner node unions the local hits and the guarded
child hits. -/
theorem hit_node (cx cy : Int) (items : List Item) (nw ne se sw : Option QTree)
    (r : PRect) :
    hit (QTree.node cx cy items nw ne se sw) r =
      ((items.filter fun i => colliderect r i.rect).toFinset
        ∪ hitChild nw (decide (r.left ≤ cx ∧ r.top ≤ cy)) r
        ∪ hitChild sw (decide (r.left ≤ cx ∧ r.bottom ≥ cy)) r
        ∪ hitChild ne (decide (r.right ≥ cx ∧ r.top ≤ cy)) r
        ∪ hitChild se (decide (r.right ≥ cx ∧ r.bottom ≥ cy)) r) := by
  rw [hit]

/-- Helper: `build` at an inner node. -/
theorem build_eq_node (items : List Item) (depth : Nat) (bounds : Option PRect)
    (h1 : ¬(depth - 1 = 0)) (h2 : items ≠ []) (b : PRect)
    (hb : b = calcBounds items bounds) :
    build items depth bounds =
      QTree.node b.centerx b.centery (nodeItems b.centerx b.centery items)
        (if nwItems b.centerx b.centery items = [] then none else
          some (build (nwItems b.centerx b.centery items) (depth - 1)
            (some ⟨b.left, b.top, b.centerx, b.centery⟩)))
        (if neItems b.centerx b.centery items = [] then none else
          some (build (neItems b.centerx b.centery items) (depth - 1)
            (some ⟨b.centerx, b.top, b.right, b.centery⟩)))
        (if seItems b.centerx b.centery items = [] then none else
          some (build (seItems b.centerx b.centery items) (depth - 1)
            (some ⟨b.centerx, b.centery, b.right, b.bottom⟩)))
        (if swItems b.centerx b.centery items = [] then none else
          some (build (swItems b.centerx b.centery items) (depth - 1)
            (some ⟨b.left, b.centery, b.centerx, b.bottom⟩))) := by
  subst hb
  rw [build, if_neg (not_or.mpr ⟨h1, h2⟩)]

/-- Helper: membership in one guarded child contribution, given a
characterization of the child's own hits. -/
theorem mem_hitChild_build (qs : List Item) (depth2 : Nat) (bounds2 : Option PRect)
    (cond : Bool) (r : PRect) (i : Item)
    (hmem : i ∈ hit (build qs depth2 bounds2) r ↔ i ∈ qs ∧ colliderect r i.rect = true) :
    (i ∈ hitChild (if qs = [] then none else some (build qs depth2 bounds2)) cond r ↔
      (cond = true ∧ i ∈ qs ∧ colliderect r i.rect = true)) := by
  by_cases hq : qs = []
  · subst hq
    rw [if_pos rfl]
    cases cond <;> simp [hitChild]
  · rw [if_neg hq]
    cases cond with
    | false => simp [hitChild]
    | true =>
        rw [hitChild]
        simp only [hmem, true_and]

/-- Helper: the core of quadtree completeness and soundness at one inner
node, for an arbitrary center: an item is reported at the node iff it is
one of the node's items and collides with the query rect.  The
hypotheses characterize each child's hits (supplied by induction in
`mem_hit_build`). -/
theorem mem_hit_node_aux (cx cy : Int) (items : List Item) (r : PRect) (i : Item)
    (nw ne se sw : Option QTree)
    (hiwh : ∀ j ∈ items, 0 ≤ j.rect.w ∧ 0 ≤ j.rect.h) (hrw : 0 ≤ r.w) (hrh : 0 ≤ r.h)
    (cnw : i ∈ hitChild nw (decide (r.left ≤ cx ∧ r.top ≤ cy)) r ↔
      (decide (r.left ≤ cx ∧ r.top ≤ cy) = true ∧
        i ∈ nwItems cx cy items ∧ colliderect r i.rect = true))
    (cne : i ∈ hitChild ne (decide (r.right ≥ cx ∧ r.top ≤ cy)) r ↔
      (decide (r.right ≥ cx ∧ r.top ≤ cy) = true ∧
        i ∈ neItems cx cy items ∧ colliderect r i.rect = true))
    (cse : i ∈ hitChild se (decide (r.right ≥ cx ∧ r.bottom ≥ cy)) r ↔
      (decide (r.right ≥ cx ∧ r.bottom ≥ cy) = true ∧
        i ∈ seItems cx cy items ∧ colliderect r i.rect = true))
    (csw : i ∈ hitChild sw (decide (r.left ≤ cx ∧ r.bottom ≥ cy)) r ↔
      (decide (r.left ≤ cx ∧ r.bottom ≥ cy) = true ∧
        i ∈ swItems cx cy items ∧ colliderect r i.rect = true)) :
    i ∈ hit (QTree.node cx cy (nodeItems cx cy items) nw ne se sw) r ↔
      i ∈ items ∧ colliderect r i.rect = true := by
  rw [hit_node]
  simp only [Finset.mem_union, cnw, cne, cse, csw, List.mem_toFinset, List.mem_filter,
    nodeItems, nwItems, neItems, seItems, swItems, inNW, inNE, inSE, inSW, inAll,
    Bool.and_eq_true, Bool.not_eq_true', Bool.and_eq_false_iff, decide_eq_true_eq,
    decide_eq_false_iff_not, not_le, not_and, not_or]
  constructor
  · rintro ((((⟨⟨hi, -⟩, hc⟩ | ⟨-, ⟨hi, -⟩, hc⟩) | ⟨-, ⟨hi, -⟩, hc⟩) | ⟨-, ⟨hi, -⟩, hc⟩) |
      ⟨-, ⟨hi, -⟩, hc⟩) <;> exact ⟨hi, hc⟩
  · rintro ⟨hi, hc⟩
    obtain ⟨hw, hh⟩ := hiwh i hi
    have hcp := hc
    simp only [colliderect, Bool.and_eq_true, decide_eq_true_eq,
      PRect.left, PRect.right, PRect.top, PRect.bottom] at hcp
    obtain ⟨⟨⟨h1, h2⟩, h3⟩, h4⟩ := hcp
    simp only [hi, hc, true_and, and_true]
    simp only [PRect.left, PRect.right, PRect.top, PRect.bottom] at hw hh ⊢
    omega

/-- Helper: an item is reported by `hit` on a built quadtree iff it is
one of the input items and its rect collides with the query rect (items
and query with nonnegative extents). -/
theorem mem_hit_build :
    ∀ (depth : Nat) (items : List Item) (bounds : Option PRect) (r : PRect) (i : Item),
      (∀ j ∈ items, 0 ≤ j.rect.w ∧ 0 ≤ j.rect.h) → 0 ≤ r.w → 0 ≤ r.h →
      (i ∈ hit (build items depth bounds) r ↔
        i ∈ items ∧ colliderect r i.rect = true) := by
  intro depth
  induction depth using Nat.strong_induction_on with
  | _ depth IH =>
    intro items bounds r i hitems hrw hrh
    by_cases h0 : depth - 1 = 0 ∨ items = []
    · rw [build, if_pos h0, hit_leaf]
      simp [List.mem_filter]
    · push_neg at h0
      obtain ⟨hd, hne⟩ := h0
      have hlt : depth - 1 < depth := by omega
      rw [build_eq_node items depth bounds hd hne (calcBounds items bounds) rfl]
      exact mem_hit_node_aux (calcBounds items bounds).centerx
        (calcBounds items bounds).centery items r i _ _ _ _ hitems hrw hrh
        (mem_hitChild_build _ _ _ _ r i
          (IH (depth - 1) hlt _ _ r i
            (fun j hj => hitems j (List.mem_filter.mp hj).1) hrw hrh))
        (mem_hitChild_build _ _ _ _ r i
          (IH (depth - 1) hlt _ _ r i
            (fun j hj => hitems j (List.mem_filter.mp hj).1) hrw hrh))
        (mem_hitChild_build _ _ _ _ r i
          (IH (depth - 1) hlt _ _ r i
            (fun j hj => hitems j (List.mem_filter.mp hj).1) hrw hrh))
        (mem_hitChild_build _ _ _ _ r i
          (IH (depth - 1) hlt _ _ r i
            (fun j hj => hitems j (List.mem_filter.mp hj).1) hrw hrh))

/-- Claim C3: for every collection of items with nonnegative extents and
every query rectangle with nonnegative extents, building a `QuadTree`
(with any depth at least 1, in particular the default 8) and querying
`hit(rect)` returns exactly the deduplicated set of items whose bounding
box intersects the rect — the same subset the O(N) brute-force pairwise
`colliderect` scan returns. -/
theorem quadtree_hit_exact (items : List Item) (depth : Nat) (r : PRect)
    (hdepth : 1 ≤ depth)
    (hitems : ∀ j ∈ items, 0 ≤ j.rect.w ∧ 0 ≤ j.rect.h)
    (hrw : 0 ≤ r.w) (hrh : 0 ≤ r.h) :
    hit (build items depth none) r = bruteHit items r := by
  ext i
  rw [mem_hit_build depth items none r i hitems hrw hrh]
  unfold bruteHit
  rw [List.mem_toFinset, List.mem_filter, colliderect_comm]

/-- Witness for C3: three unit items (one of them queried twice over,
one far away) against a concrete query rectangle, at the default depth
8. -/
theorem quadtree_hit_exact_witness :
    hit (build [⟨0, ⟨2, 3, 1, 1⟩⟩, ⟨1, ⟨50, 50, 1, 1⟩⟩, ⟨2, ⟨7, 2, 1, 1⟩⟩] 8 none)
        ⟨0, 0, 10, 10⟩ =
      bruteHit [⟨0, ⟨2, 3, 1, 1⟩⟩, ⟨1, ⟨50, 50, 1, 1⟩⟩, ⟨2, ⟨7, 2, 1, 1⟩⟩] ⟨0, 0, 10, 10⟩ := by
  exact quadtree_hit_exact _ 8 _ (by norm_num) (by decide) (by decide) (by decide)

end Pyrge
